import Mathlib

/-!
Verification of the MPScore evaluation/calibration pipeline
(`src/scripts/mpscore.py`) against its natural-language specification.

The development shallowly embeds the parts of the pipeline with algorithmic
content: the fingerprint parameter flow of `predict` / `predict_proba`, the
threshold grid and classification rule of the precision-recall sweep, the
per-threshold aggregation of confusion counts across folds (including the
rounding and NaN behaviour of the Python/numpy code), the k-fold index
partitioning performed by sklearn's `KFold`, the sigmoid-calibration
inversion `invert_calibrated_prob`, the `ProbabilityDummyClassifier`
baseline, and the state discipline of `cross_validate`.

Python floats are modelled as exact rationals (or reals where square roots
and logarithms appear); IEEE NaN is modelled as `Option.none`; Python
exceptions are modelled with `Except`.
-/

namespace Mpscore

/-- Opaque molecule value (RDKit `Mol` objects live in an external library;
only their identity matters for the parameter-flow claims). -/
abbrev Mol := Nat

/-- Embedding of `get_fingerprint_as_bit_counts` (mpscore.py lines 58-81).
The RDKit computation (`AllChem.AddHs` followed by
`AllChem.GetMorganFingerprintAsBitVect` plus replacing each set bit by its
activator count) is external to the repository, so it is abstracted as the
function argument `morgan nbits radius mol`; the repository function merely
forwards its `nbits` and `radius` arguments to it, with Python default
values `nbits=1024`, `radius=2`. -/
def get_fingerprint_as_bit_counts (morgan : Nat → Nat → Mol → List Nat)
    (mol : Mol) (nbits : Nat := 1024) (radius : Nat := 2) : List Nat :=
  morgan nbits radius mol

/-- The fingerprint configuration stored on an `MPScore` instance:
`self._fp_radius` and `self._fp_bit_length` (mpscore.py lines 103-118). -/
structure Config where
  fp_radius : Nat
  fp_bit_length : Nat
deriving DecidableEq

/-- Fingerprint computed by `MPScore.predict_proba` (mpscore.py lines
311-315): the source passes `nbits=self._fp_bit_length` and
`radius=self._fp_bit_length` (line 313). -/
def predict_proba_fingerprint (morgan : Nat → Nat → Mol → List Nat)
    (c : Config) (mol : Mol) : List Nat :=
  get_fingerprint_as_bit_counts morgan mol c.fp_bit_length c.fp_bit_length

/-- Fingerprint computed by `MPScore.predict` (mpscore.py line 286): the
source passes no keyword arguments, so the Python defaults `nbits=1024`,
`radius=2` are used regardless of the stored configuration. -/
def predict_fingerprint (morgan : Nat → Nat → Mol → List Nat)
    (_c : Config) (mol : Mol) : List Nat :=
  get_fingerprint_as_bit_counts morgan mol

/-- Fingerprint computed at training time (`main`, mpscore.py lines
667-673): `radius=model._fp_radius`, `nbits=model._fp_bit_length`. -/
def training_fingerprint (morgan : Nat → Nat → Mol → List Nat)
    (c : Config) (mol : Mol) : List Nat :=
  get_fingerprint_as_bit_counts morgan mol c.fp_bit_length c.fp_radius

/-- Threshold grid of `get_precision_recall_curve_data` (mpscore.py line
397): `np.linspace(0, 0.99, 100)`, whose i-th entry is
`0 + i * (0.99 - 0) / 99 = i / 100`. -/
def thresholds : List ℚ := (List.range 100).map (fun (i : Nat) => (i : ℚ) / 100)

/-- Per-sample classification rule of the threshold sweep (mpscore.py lines
408-410): predicted label is 1 exactly when the predicted class-1
probability strictly exceeds the threshold (`1 if prob[1] > threshold else
0`). -/
def classify (prob1 threshold : ℚ) : Nat := if threshold < prob1 then 1 else 0

/-- Predicted labels of a held-out set at a threshold (mpscore.py lines
408-410). -/
def y_pred_at (probs1 : List ℚ) (t : ℚ) : List Nat :=
  probs1.map (fun p => classify p t)

/-- True positives, `cm[1, 1]` of `confusion_matrix(y_test, y_pred_test)`
(mpscore.py line 418): samples with actual label 1 and predicted label 1. -/
def tpCount (y_true y_pred : List Nat) : Nat :=
  (y_true.zip y_pred).countP (fun q => q.1 == 1 && q.2 == 1)

/-- False positives, `cm[0, 1]` (mpscore.py line 419). -/
def fpCount (y_true y_pred : List Nat) : Nat :=
  (y_true.zip y_pred).countP (fun q => q.1 == 0 && q.2 == 1)

/-- True negatives, `cm[0, 0]` (mpscore.py line 420). -/
def tnCount (y_true y_pred : List Nat) : Nat :=
  (y_true.zip y_pred).countP (fun q => q.1 == 0 && q.2 == 0)

/-- False negatives, `cm[1, 0]` (mpscore.py line 421). -/
def fnCount (y_true y_pred : List Nat) : Nat :=
  (y_true.zip y_pred).countP (fun q => q.1 == 1 && q.2 == 0)

/-- Recall of the threshold rule on a fixed held-out set:
`TP / (TP + FN)` at threshold `t` (mpscore.py line 442 restricted to a
single fold). -/
def recallAt (y_true : List Nat) (probs1 : List ℚ) (t : ℚ) : ℚ :=
  (tpCount y_true (y_pred_at probs1 t) : ℚ) /
    ((tpCount y_true (y_pred_at probs1 t) : ℚ) +
      (fnCount y_true (y_pred_at probs1 t) : ℚ))

/-- Round-half-to-even on exact rationals, modelling Python's banker
rounding `round`. -/
def roundHalfEven (q : ℚ) : ℤ :=
  if Int.fract q < 1/2 then ⌊q⌋
  else if (1 : ℚ)/2 < Int.fract q then ⌊q⌋ + 1
  else if ⌊q⌋ % 2 = 0 then ⌊q⌋ else ⌊q⌋ + 1

/-- Python's `round(q, 3)` on exact rationals. -/
def round3 (q : ℚ) : ℚ := (roundHalfEven (q * 1000) : ℚ) / 1000

/-- A rational-or-NaN value: `none` models the IEEE NaN produced by numpy's
0/0 division, `some q` an ordinary float. -/
abbrev NaNQ := Option ℚ

/-- numpy's `nan_to_num` on a rational-or-NaN value: NaN becomes 0
(mpscore.py lines 443-448 and 465-468). -/
def nan_to_num (x : NaNQ) : ℚ := x.getD 0

/-- `np.mean` of a list of counts. -/
def meanCounts (l : List Nat) : ℚ := (l.sum : ℚ) / l.length

/-- Population variance, the square of `np.std` (numpy default `ddof=0`). -/
def varCounts (l : List Nat) : ℚ :=
  (l.map (fun (x : Nat) => ((x : ℚ) - meanCounts l) ^ 2)).sum / l.length

/-- `np.std` of a list of counts. -/
noncomputable def stdCounts (l : List Nat) : ℝ := Real.sqrt (varCounts l)

/-- `np.std(row) / np.mean(row)` (mpscore.py lines 438-440): the across-fold
coefficient of variation of a count. Counts are non-negative, so a zero mean
forces a zero standard deviation and the quotient is numpy's NaN (`none`);
otherwise the quotient is an ordinary float. -/
noncomputable def rel_error (l : List Nat) : Option ℝ :=
  if meanCounts l = 0 then none else some (stdCounts l / (meanCounts l : ℝ))

/-- `p_test = round(tp_test / (tp_test + fp_test), 3)` (mpscore.py line
441), where `tp_test`/`fp_test` are the sums of the per-fold counts at one
threshold (lines 435-436); numpy's 0/0 yields NaN and `round(nan) = nan`. -/
def p_test (tp_folds fp_folds : List Nat) : NaNQ :=
  if tp_folds.sum + fp_folds.sum = 0 then none
  else some (round3 ((tp_folds.sum : ℚ) / ((tp_folds.sum : ℚ) + (fp_folds.sum : ℚ))))

/-- `r_test = round(tp_test / (tp_test + fn_test), 3)` (mpscore.py line
442). -/
def r_test (tp_folds fn_folds : List Nat) : NaNQ :=
  if tp_folds.sum + fn_folds.sum = 0 then none
  else some (round3 ((tp_folds.sum : ℚ) / ((tp_folds.sum : ℚ) + (fn_folds.sum : ℚ))))

/-- NaN-propagating float multiplication. -/
noncomputable def oMul : Option ℝ → Option ℝ → Option ℝ
  | some a, some b => some (a * b)
  | _, _ => none

/-- NaN-propagating float addition. -/
noncomputable def oAdd : Option ℝ → Option ℝ → Option ℝ
  | some a, some b => some (a + b)
  | _, _ => none

/-- NaN-propagating multiplication by a constant. -/
noncomputable def oScale (c : ℝ) : Option ℝ → Option ℝ :=
  Option.map (fun x => c * x)

/-- numpy's `nan_to_num` on a real-or-NaN value. -/
noncomputable def nanToNumR (x : Option ℝ) : ℝ := x.getD 0

/-- Injection of a rational-or-NaN value into the reals. -/
noncomputable def toR (x : NaNQ) : Option ℝ := x.map (fun q => (q : ℝ))

/-- `prec_error = np.nan_to_num((2 * tp_rel_error + fp_rel_error) * p_test)`
(mpscore.py lines 443-445). -/
noncomputable def prec_error (tp_folds fp_folds : List Nat) : ℝ :=
  nanToNumR (oMul (oAdd (oScale 2 (rel_error tp_folds)) (rel_error fp_folds))
    (toR (p_test tp_folds fp_folds)))

/-- `rec_error = np.nan_to_num((2 * tp_rel_error + fn_rel_error) * r_test)`
(mpscore.py lines 446-448). -/
noncomputable def rec_error (tp_folds fn_folds : List Nat) : ℝ :=
  nanToNumR (oMul (oAdd (oScale 2 (rel_error tp_folds)) (rel_error fn_folds))
    (toR (r_test tp_folds fn_folds)))

/-- Specification-side precision: `ΣTP / (ΣTP + ΣFP)` over the fold totals,
an explicit undefined value when the denominator is zero. Written from the
spec's words, to be compared with the source-side `p_test`. -/
def precision_spec (tp_folds fp_folds : List Nat) : NaNQ :=
  if tp_folds.sum + fp_folds.sum = 0 then none
  else some ((tp_folds.sum : ℚ) / ((tp_folds.sum : ℚ) + (fp_folds.sum : ℚ)))

/-- Specification-side recall: `ΣTP / (ΣTP + ΣFN)` over the fold totals.
Written from the spec's words, to be compared with the source-side
`r_test`. -/
def recall_spec (tp_folds fn_folds : List Nat) : NaNQ :=
  if tp_folds.sum + fn_folds.sum = 0 then none
  else some ((tp_folds.sum : ℚ) / ((tp_folds.sum : ℚ) + (fn_folds.sum : ℚ)))

/-- Curve coordinates of the logistic and random baselines in
`plot_precision_recall_curve` (mpscore.py lines 465-468): the raw
precision/recall columns are passed through `np.nan_to_num`, so NaN entries
are rendered as 0. The main model's curve (lines 469-470) uses the raw
columns with NaN left in place. -/
def baseline_curve_values (vals : List NaNQ) : List ℚ := vals.map nan_to_num

/-- Python exceptions relevant to the sweep. `valueError` is the exception
class sklearn's `KFold.split` raises when `n_splits > n_samples`.
`configurationError` is modelled from the spec: the spec's error taxonomy
names a `ConfigurationError` for degenerate inputs, but no such class exists
anywhere in the source; the constructor exists here only so the claim about
it can be stated. -/
inductive PyError
  | valueError
  | configurationError
deriving DecidableEq

/-- Fold sizes of sklearn's `KFold` with `n` samples and `k` splits
(modelled from sklearn `_split.py`, the library called at mpscore.py lines
144 and 400): the first `n % k` folds have `n / k + 1` samples, the rest
`n / k`. -/
def fold_sizes (n k : Nat) : List Nat :=
  (List.range k).map (fun i => if i < n % k then n / k + 1 else n / k)

/-- Cuts a list into consecutive chunks of the given sizes. -/
def chunksBySizes : List Nat → List Nat → List (List Nat)
  | _, [] => []
  | l, s :: ss => l.take s :: chunksBySizes (l.drop s) ss

/-- Test-index sets of sklearn's `KFold(n_splits=k, shuffle=True)`
(mpscore.py lines 144 and 400, both with `n_splits=5, random_state=32`):
the shuffled index sequence `perm` — an arbitrary permutation of
`range n`, the shuffle being the seeded generator's output — is cut into
`k` consecutive chunks with the `fold_sizes` sizes; each chunk is one
fold's held-out test-index set. -/
def kfold_test_sets (perm : List Nat) (k : Nat) : List (List Nat) :=
  chunksBySizes perm (fold_sizes perm.length k)

/-- `KFold.split` (sklearn): raises `ValueError` when the requested number
of splits exceeds the number of samples — in particular on an empty
dataset — and otherwise yields the fold test-index sets. -/
def kfold_split (n k : Nat) (perm : List Nat) : Except PyError (List (List Nat)) :=
  if n < k then Except.error PyError.valueError else Except.ok (kfold_test_sets perm k)

/-- One labelled record of the SA classification dataset: a fingerprint
(`data["fingerprint"]`) and its binary label (`data["synthesisable"]`). -/
structure Sample where
  fingerprint : List Nat
  synthesisable : Nat
deriving DecidableEq

/-- `data[idx]` for a list of row indices (numpy fancy indexing `X[test_idx]`,
mpscore.py line 402). -/
def select_samples (data : List Sample) (idx : List Nat) : List Sample :=
  idx.filterMap (fun i => data.get? i)

/-- Training indices of a fold: the complement of the test indices, in
increasing order (sklearn `KFold`'s train side). -/
def fold_train_indices (n : Nat) (testIdx : List Nat) : List Nat :=
  (List.range n).filter (fun i => !(testIdx.contains i))

/-- Confusion counts of one fold at one threshold (mpscore.py lines
406-421). -/
def confusion_at (y_true : List Nat) (probs1 : List ℚ) (t : ℚ) :
    Nat × Nat × Nat × Nat :=
  (tpCount y_true (y_pred_at probs1 t), fpCount y_true (y_pred_at probs1 t),
    tnCount y_true (y_pred_at probs1 t), fnCount y_true (y_pred_at probs1 t))

/-- Confusion counts of one fold at every grid threshold (the inner loop of
mpscore.py lines 406-430). -/
def sweep_fold (probs1 : List ℚ) (y_true : List Nat) :
    List (Nat × Nat × Nat × Nat) :=
  thresholds.map (fun t => confusion_at y_true probs1 t)

/-- Embedding of `MPScore.get_precision_recall_curve_data` (mpscore.py lines
395-453): split the dataset with `KFold(5, shuffle=True, random_state=32)`
(the shuffle abstracted as the permutation `perm`), fit the model on each
training split (`fitPP train` is the fitted model's class-1 probability
function, abstracting the external sklearn estimator of lines 404-405), and
record the per-fold confusion counts at every threshold. The returned rows
pair each threshold with its per-fold `(tp, fp, tn, fn)` counts; the derived
columns of lines 432-452 are `p_test`, `r_test`, `prec_error` and
`rec_error` applied to those rows. On fewer samples than splits, `KFold`
raises before any model is fitted. -/
def get_precision_recall_curve_data (fitPP : List Sample → List Nat → ℚ)
    (perm : List Nat) (data : List Sample) :
    Except PyError (List (ℚ × List (Nat × Nat × Nat × Nat))) :=
  match kfold_split data.length 5 perm with
  | Except.error e => Except.error e
  | Except.ok testSets =>
    let foldRows := testSets.map (fun testIdx =>
      let test := select_samples data testIdx
      let train := select_samples data (fold_train_indices data.length testIdx)
      let model := fitPP train
      let probs := test.map (fun s => model s.fingerprint)
      let y := test.map (fun s => s.synthesisable)
      sweep_fold probs y)
    Except.ok ((List.range thresholds.length).map (fun i =>
      (thresholds.getD i 0, foldRows.map (fun fr => fr.getD i (0, 0, 0, 0)))))

/-- The standard logistic sigmoid `1 / (1 + exp(-x))`. -/
noncomputable def sigmoid (x : ℝ) : ℝ := 1 / (1 + Real.exp (-x))

/-- Embedding of `invert_calibrated_prob` (mpscore.py lines 682-688) with
the fitted sigmoid parameters `a = sigmoid_classifier.a_` and
`b = sigmoid_classifier.b_` passed explicitly:
`(log((1 - prob) / prob) - b) / a`. -/
noncomputable def invert_calibrated_prob (prob a b : ℝ) : ℝ :=
  (Real.log ((1 - prob) / prob) - b) / a

/-- The forward map actually applied by the fitted calibration layer:
sklearn's `_SigmoidCalibration.predict` (the library fitted at mpscore.py
lines 246-249) computes `expit(-(a * raw + b)) = sigmoid(-(a·raw + b))`,
Platt's convention. -/
noncomputable def sigmoid_calibration_map (a b raw : ℝ) : ℝ :=
  sigmoid (-(a * raw + b))

/-- The forward map as the claim words it: `calibrated = sigmoid(a·p + b)`
with the standard logistic sigmoid. Written from the spec's words, to be
compared with `sigmoid_calibration_map`. -/
noncomputable def claimed_forward_map (a b raw : ℝ) : ℝ :=
  sigmoid (a * raw + b)

/-- The interface of Python's process-global `random` module as used by
`ProbabilityDummyClassifier` (mpscore.py lines 709-711): `seed n` is the
generator state after `random.seed(n)`, `uniform g` is the value and
successor state of one `random.uniform(0, 1)` draw. The Mersenne-Twister
internals are external to the repository and abstracted by this record. -/
structure RandomModule (σ : Type) where
  seed : Nat → σ
  uniform : σ → ℚ × σ

/-- `n` sequential `random.uniform(0, 1)` draws from state `g`. -/
def drawN {σ : Type} (R : RandomModule σ) : Nat → σ → List ℚ × σ
  | 0, g => ([], g)
  | n + 1, g =>
    let u := (R.uniform g).1
    let g1 := (R.uniform g).2
    let rest := drawN R n g1
    (u :: rest.1, rest.2)

/-- Embedding of `ProbabilityDummyClassifier.predict_proba` (mpscore.py
lines 708-711) as a transformer of the process-global `random` state `g`:
with strategy `"random_prob"` the source calls `random.seed(32)` — replacing
the global state with the fixed reseeded state — and then draws one
`[0, uniform(0, 1)]` pair per sample from that reseeded global state; with
any other strategy the Python function implicitly returns `None` and leaves
the state alone. -/
def ProbabilityDummyClassifier.predict_proba {σ : Type} (R : RandomModule σ)
    (strategy : String) (xlen : Nat) (g : σ) : Option (List (ℚ × ℚ)) × σ :=
  if strategy = "random_prob" then
    (some (((drawN R xlen (R.seed 32)).1).map (fun u => ((0 : ℚ), u))),
      (drawN R xlen (R.seed 32)).2)
  else (none, g)

/-- `ProbabilityDummyClassifier.fit` (mpscore.py lines 705-706): returns
`None` and touches nothing. -/
def ProbabilityDummyClassifier.fit {σ : Type} (g : σ) : Option Unit × σ :=
  (none, g)

/-- A concrete toy instantiation of the `random` module interface, used to
evaluate the dummy classifier on explicit states. -/
def toyR : RandomModule Nat :=
  ⟨fun n => n * 100, fun s => (1 / ((s : ℚ) + 1), s + 1)⟩

/-- The mutable state of an `MPScore` object that `cross_validate` can see:
its `self.model` attribute. The model type is abstract; `fit` is modelled
functionally because sklearn's `fit` replaces learned attributes on the
object it is called on and the source calls it on a copy. -/
structure MPScoreState (Model : Type) where
  model : Model

/-- Python's `copy.copy(self.model)` (mpscore.py line 181): the fold's model
is a copy of the stored model, so fitting it cannot touch `self.model`. -/
def copyModel {Model : Type} (m : Model) : Model := m

/-- One fold of `MPScore.cross_validate` (mpscore.py lines 177-189): select
the train/test rows, fit a copy of the stored model on the training rows,
predict the held-out rows, evaluate every metric function on
`(y_test, test_predictions)`, and extend the combined prediction and label
lists. The accumulator carries `(state, predictions_combined,
y_test_combined, per-fold metric scores)`; the state component is passed
through untouched because the source never assigns to `self.model`. -/
def cross_validate_step {Model : Type} (fit : Model → List Sample → Model)
    (predictFn : Model → List Nat → Nat)
    (metricFns : List (List Nat → List Nat → ℚ)) (data : List Sample)
    (acc : MPScoreState Model × List Nat × List Nat × List (List ℚ))
    (fold : List Nat × List Nat) :
    MPScoreState Model × List Nat × List Nat × List (List ℚ) :=
  let s := acc.1
  let x_train := select_samples data fold.1
  let x_test := select_samples data fold.2
  let model := copyModel s.model
  let fitted := fit model x_train
  let test_predictions := x_test.map (fun smp => predictFn fitted smp.fingerprint)
  let y_test := x_test.map (fun smp => smp.synthesisable)
  let scores := metricFns.map (fun m => m y_test test_predictions)
  (s, acc.2.1 ++ test_predictions, acc.2.2.1 ++ y_test, acc.2.2.2 ++ [scores])

/-- The `tps`/`fps`/`tns`/`fns` totals over the combined held-out
predictions (mpscore.py lines 190-206): a sample with actual label 1 is a
true positive when predicted equal, otherwise a false negative; a sample
with actual label 0 is a true negative when predicted equal, otherwise a
false positive. -/
def confusion_totals (y_true y_pred : List Nat) : Nat × Nat × Nat × Nat :=
  ((y_true.zip y_pred).countP (fun q => q.1 == 1 && q.2 == 1),
    (y_true.zip y_pred).countP (fun q => q.1 == 0 && !(q.2 == 0)),
    (y_true.zip y_pred).countP (fun q => q.1 == 0 && q.2 == 0),
    (y_true.zip y_pred).countP (fun q => q.1 == 1 && !(q.2 == 1)))

/-- Embedding of `MPScore.cross_validate` (mpscore.py lines 136-223):
split with `KFold(5, shuffle=True, random_state=32)` (shuffle abstracted as
`perm`), run `cross_validate_step` over the folds, and return the per-fold
metric scores together with the overall confusion totals, paired with the
final object state. `fit`/`predictFn` abstract the external sklearn
estimator, `metricFns` the sklearn metric functions of lines 148-175. -/
def cross_validate {Model : Type} (fit : Model → List Sample → Model)
    (predictFn : Model → List Nat → Nat)
    (metricFns : List (List Nat → List Nat → ℚ)) (perm : List Nat)
    (s : MPScoreState Model) (data : List Sample) :
    Except PyError (List (List ℚ) × (Nat × Nat × Nat × Nat)) ×
      MPScoreState Model :=
  match kfold_split data.length 5 perm with
  | Except.error e => (Except.error e, s)
  | Except.ok testSets =>
    let folds := testSets.map (fun t => (fold_train_indices data.length t, t))
    let r := folds.foldl (cross_validate_step fit predictFn metricFns data)
      (s, [], [], [])
    (Except.ok (r.2.2.2, confusion_totals r.2.2.1 r.2.1), r.1)

/-! Helper lemmas. -/

theorem one_sub_sigmoid_div (x : ℝ) :
    (1 - sigmoid x) / sigmoid x = Real.exp (-x) := by
  have he : 0 < Real.exp (-x) := Real.exp_pos _
  have hd : (0 : ℝ) < 1 + Real.exp (-x) := by linarith
  rw [sigmoid]
  field_simp

theorem round3_third : round3 ((1 : ℚ) / 3) = 333/1000 := by
  rw [round3]
  have h : (1 : ℚ)/3 * 1000 = 1000/3 := by norm_num
  have hf : ⌊(1000/3 : ℚ)⌋ = 333 := by norm_num
  rw [h, roundHalfEven, if_pos]
  · rw [hf]; norm_num
  · rw [Int.fract, hf]; norm_num

theorem tpCount_eq (y_true : List Nat) (probs1 : List ℚ) (t : ℚ) :
    tpCount y_true (y_pred_at probs1 t) =
      (y_true.zip probs1).countP (fun q => q.1 == 1 && decide (t < q.2)) := by
  rw [tpCount, y_pred_at, List.zip_map_right, List.countP_map]
  apply List.countP_congr
  intro q _
  simp [classify]

theorem fnCount_eq (y_true : List Nat) (probs1 : List ℚ) (t : ℚ) :
    fnCount y_true (y_pred_at probs1 t) =
      (y_true.zip probs1).countP (fun q => q.1 == 1 && !(decide (t < q.2))) := by
  rw [fnCount, y_pred_at, List.zip_map_right, List.countP_map]
  apply List.countP_congr
  intro q _
  simp [classify]

theorem countP_and_split {α : Type} (l : List α) (r s : α → Bool) :
    l.countP (fun a => r a && s a) + l.countP (fun a => r a && !(s a)) =
      l.countP r := by
  induction l with
  | nil => rfl
  | cons a l ih =>
    by_cases hr : r a <;> by_cases hs : s a <;>
      simp [List.countP_cons, hr, hs] <;> omega

theorem denom_const (y_true : List Nat) (probs1 : List ℚ) (t : ℚ) :
    tpCount y_true (y_pred_at probs1 t) + fnCount y_true (y_pred_at probs1 t) =
      (y_true.zip probs1).countP (fun q => q.1 == 1) := by
  rw [tpCount_eq, fnCount_eq]
  exact countP_and_split _ _ _

theorem tp_antitone (y_true : List Nat) (probs1 : List ℚ) (t1 t2 : ℚ)
    (h : t1 ≤ t2) :
    tpCount y_true (y_pred_at probs1 t2) ≤ tpCount y_true (y_pred_at probs1 t1) := by
  rw [tpCount_eq, tpCount_eq]
  apply List.countP_mono_left
  intro q _ hq
  simp only [Bool.and_eq_true, decide_eq_true_eq] at hq ⊢
  exact ⟨hq.1, lt_of_le_of_lt h hq.2⟩

theorem sum_map_ite_range (k m a b : Nat) (h : m ≤ k) :
    ((List.range k).map (fun i => if i < m then a else b)).sum =
      m * a + (k - m) * b := by
  induction k with
  | zero =>
    have hm : m = 0 := Nat.le_zero.mp h
    simp [hm]
  | succ k ih =>
    rw [List.range_succ, List.map_append, List.sum_append]
    rcases Nat.lt_or_ge k m with hk | hk
    · have hm : m = k + 1 := by omega
      subst hm
      have hall : ((List.range k).map (fun i => if i < k + 1 then a else b)) =
          (List.range k).map (fun _ => a) := by
        apply List.map_congr_left
        intro i hi
        rw [List.mem_range] at hi
        rw [if_pos (by omega)]
      rw [hall]
      simp [List.map_const, List.sum_replicate, if_pos hk]
      ring
    · have := ih hk
      rw [this]
      simp only [List.map_cons, List.map_nil, List.sum_cons, List.sum_nil]
      rw [if_neg (by omega)]
      have hkm : k + 1 - m = (k - m) + 1 := by omega
      rw [hkm]
      ring

theorem fold_sizes_sum (n k : Nat) (hk : 0 < k) : (fold_sizes n k).sum = n := by
  rw [fold_sizes, sum_map_ite_range k (n % k) _ _ (Nat.le_of_lt (Nat.mod_lt n hk))]
  have h1 : n % k * (n / k + 1) = n % k * (n / k) + n % k := by ring
  have h2 : (k - n % k) * (n / k) = k * (n / k) - n % k * (n / k) := by
    rw [Nat.sub_mul]
  have h3 : n % k * (n / k) ≤ k * (n / k) :=
    Nat.mul_le_mul_right _ (Nat.le_of_lt (Nat.mod_lt n hk))
  have h4 : k * (n / k) + n % k = n := Nat.div_add_mod n k
  omega

theorem chunksBySizes_flatten (sizes : List Nat) :
    ∀ l : List Nat, sizes.sum = l.length → (chunksBySizes l sizes).flatten = l := by
  induction sizes with
  | nil =>
    intro l h
    have : l = [] := List.eq_nil_of_length_eq_zero (by simpa using h.symm)
    simp [chunksBySizes, this]
  | cons s ss ih =>
    intro l h
    rw [chunksBySizes, List.flatten_cons]
    rw [ih (l.drop s) (by simp at h ⊢; omega)]
    exact List.take_append_drop s l

theorem chunksBySizes_length (sizes : List Nat) :
    ∀ l : List Nat, (chunksBySizes l sizes).length = sizes.length := by
  induction sizes with
  | nil => intro l; rfl
  | cons s ss ih =>
    intro l
    rw [chunksBySizes, List.length_cons, ih, List.length_cons]

theorem drawN_length {σ : Type} (R : RandomModule σ) :
    ∀ (n : Nat) (g : σ), (drawN R n g).1.length = n := by
  intro n
  induction n with
  | zero => intro g; rfl
  | succ n ih => intro g; rw [drawN]; simp [ih]

theorem cross_validate_foldl_state {Model : Type}
    (fit : Model → List Sample → Model) (predictFn : Model → List Nat → Nat)
    (metricFns : List (List Nat → List Nat → ℚ)) (data : List Sample)
    (folds : List (List Nat × List Nat)) :
    ∀ acc : MPScoreState Model × List Nat × List Nat × List (List ℚ),
      (folds.foldl (cross_validate_step fit predictFn metricFns data) acc).1 =
        acc.1 := by
  induction folds with
  | nil => intro acc; rfl
  | cons f fs ih =>
    intro acc
    rw [List.foldl_cons, ih]
    rfl

/-! Claim theorems. -/

/-- C1: the claim states that `predict` and `predict_proba` compute the
fingerprint with the configured `_fp_radius` and `_fp_bit_length`, so the
scoring-time feature vector equals the training-time one. The code violates
its own evident intent: at the default configuration (radius 2, bit length
1024), `predict_proba` hashes with `radius = _fp_bit_length = 1024` (a slip
for `_fp_radius`, line 313), while the training fingerprints of `main` use
radius 2; and `predict` ignores the configuration entirely, so under a
non-default configuration (here radius 3, bit length 2048) it still hashes
with `nbits=1024, radius=2`. Witnessed with a Morgan stub that records the
parameters it receives. -/
theorem scoring_fingerprint_params_mismatch :
    predict_proba_fingerprint (fun _nbits radius _mol => [radius]) ⟨2, 1024⟩ 0 = [1024] ∧
    training_fingerprint (fun _nbits radius _mol => [radius]) ⟨2, 1024⟩ 0 = [2] ∧
    predict_proba_fingerprint (fun _nbits radius _mol => [radius]) ⟨2, 1024⟩ 0 ≠
      training_fingerprint (fun _nbits radius _mol => [radius]) ⟨2, 1024⟩ 0 ∧
    predict_fingerprint (fun nbits radius _mol => [nbits, radius]) ⟨3, 2048⟩ 0 = [1024, 2] ∧
    predict_fingerprint (fun nbits radius _mol => [nbits, radius]) ⟨3, 2048⟩ 0 ≠
      training_fingerprint (fun nbits radius _mol => [nbits, radius]) ⟨3, 2048⟩ 0 := by
  refine ⟨rfl, rfl, by decide, rfl, by decide⟩

/-- C2 counterexample: with the forward map worded as in the claim —
`calibrated = sigmoid(a·p + b)` with the standard logistic sigmoid — the
inversion does not return `p`: at `a = -2`, `b = 1`, `p = 0.3` it returns
exactly `0.7`, not `≈ 0.3`. -/
theorem invert_of_claimed_forward_counterexample :
    invert_calibrated_prob (claimed_forward_map (-2) 1 (3/10)) (-2) 1 = 7/10 ∧
    (7/10 : ℝ) ≠ 3/10 := by
  constructor
  · rw [invert_calibrated_prob, claimed_forward_map]
    have h : ((-2 : ℝ)) * (3/10) + 1 = 2/5 := by norm_num
    rw [h, one_sub_sigmoid_div, Real.log_exp]
    norm_num
  · norm_num

/-- C2 (amended): the forward map actually applied by the fitted sigmoid
calibration is sklearn's `expit(-(a·raw + b)) = sigmoid(-(a·raw + b))`;
against that forward map, `invert_calibrated_prob` is an exact left
inverse: for fitted scale `a ≠ 0`, any offset `b`, and every probability
`p ∈ (0, 1)`, inverting the calibrated value returns `p`. -/
theorem invert_calibrated_prob_left_inverse (a b p : ℝ) (ha : a ≠ 0)
    (hp0 : 0 < p) (hp1 : p < 1) :
    invert_calibrated_prob (sigmoid_calibration_map a b p) a b = p := by
  rw [invert_calibrated_prob, sigmoid_calibration_map, one_sub_sigmoid_div,
    Real.log_exp, neg_neg]
  field_simp

/-- C2 witness: the amended inversion at the claim's own synthetic
parameters `a = -2`, `b = 1`, `p = 0.3`. -/
theorem invert_calibrated_prob_left_inverse_witness :
    invert_calibrated_prob (sigmoid_calibration_map (-2) 1 (3/10)) (-2) 1 = 3/10 :=
  invert_calibrated_prob_left_inverse (-2) 1 (3/10) (by norm_num) (by norm_num)
    (by norm_num)

/-- C3 counterexample: the claim states the grid spans `[0, 1]` with both
endpoints included, but the grid is `np.linspace(0, 0.99, 100)`: the value
1 is not a grid point (the largest is 0.99). -/
theorem one_not_in_thresholds : (1 : ℚ) ∉ thresholds := by
  rw [thresholds]
  simp only [List.mem_map, List.mem_range, not_exists, not_and]
  intro i hi hq
  rw [div_eq_one_iff_eq (by norm_num)] at hq
  have hh : i = 100 := by exact_mod_cast hq
  omega

/-- C3 (amended): the sweep evaluates a monotone grid of exactly 100 evenly
spaced thresholds with step 1/100, starting at 0 and ending at 0.99 (the
endpoint 1 is not included), and at each threshold classifies a held-out
sample as positive exactly when its predicted class-1 probability strictly
exceeds the threshold. -/
theorem thresholds_grid_amended :
    thresholds.length = 100 ∧
    thresholds.head? = some 0 ∧
    thresholds.getLast? = some (99/100) ∧
    List.Chain' (fun a b : ℚ => b = a + 1/100) thresholds ∧
    List.Chain' (fun a b : ℚ => a < b) thresholds ∧
    (∀ p t : ℚ, classify p t = 1 ↔ t < p) ∧
    (∀ p t : ℚ, classify p t = 0 ↔ ¬(t < p)) := by
  have hstep : List.Chain' (fun a b : ℚ => b = a + 1/100) thresholds := by
    rw [thresholds, List.chain'_map]
    rw [show (100 : Nat) = 99 + 1 from rfl, List.chain'_range_succ]
    intro m hm
    push_cast
    ring
  refine ⟨?_, ?_, ?_, hstep, ?_, ?_, ?_⟩
  · rw [thresholds, List.length_map, List.length_range]
  · rw [thresholds, List.head?_map]
    rw [show (100 : Nat) = 99 + 1 from rfl, List.range_succ_eq_map]
    norm_num
  · rw [thresholds, List.getLast?_eq_getElem?]
    simp
  · apply hstep.imp
    intro a b hab
    rw [hab]
    norm_num
  · intro p t
    rw [classify]
    by_cases h : t < p <;> simp [h]
  · intro p t
    rw [classify]
    by_cases h : t < p <;> simp [h]

/-- C4 counterexample: the claim states that the reported precision equals
`ΣTP / (ΣTP + ΣFP)` over the fold totals, but the source rounds it to 3
decimal places (`round(..., 3)`, line 441): with per-fold true-positive
counts `[1,0,0,0,0]` and false-positive counts `[2,0,0,0,0]` the code
reports 0.333 while the claimed value is 1/3, and the two differ. -/
theorem precision_reported_rounded_counterexample :
    p_test [1, 0, 0, 0, 0] [2, 0, 0, 0, 0] = some (333/1000) ∧
    precision_spec [1, 0, 0, 0, 0] [2, 0, 0, 0, 0] = some (1/3) ∧
    p_test [1, 0, 0, 0, 0] [2, 0, 0, 0, 0] ≠
      precision_spec [1, 0, 0, 0, 0] [2, 0, 0, 0, 0] := by
  have hs : ([1, 0, 0, 0, 0] : List Nat).sum = 1 := rfl
  have hs2 : ([2, 0, 0, 0, 0] : List Nat).sum = 2 := rfl
  refine ⟨?_, ?_, ?_⟩
  · rw [p_test, hs, hs2, if_neg (by norm_num)]
    norm_num
    rw [round3_third]
  · rw [precision_spec, hs, hs2, if_neg (by norm_num)]
    norm_num
  · rw [p_test, precision_spec, hs, hs2, if_neg (by norm_num), if_neg (by norm_num)]
    norm_num
    rw [round3_third]
    intro h
    norm_num at h

/-- C4 (amended): for every threshold row, the reported precision is
`ΣTP / (ΣTP + ΣFP)` over the per-fold totals rounded to 3 decimal places
(and likewise recall with `ΣFN`); the reported error bands equal
`(2·cv(TP) + cv(FP))` times the rounded precision and `(2·cv(TP) + cv(FN))`
times the rounded recall, where `cv` is the across-fold coefficient of
variation `std/mean`; and a NaN arising from a zero-count fold is coerced to
zero before reporting. -/
theorem aggregated_metrics_amended (tp_folds fp_folds fn_folds : List Nat) :
    p_test tp_folds fp_folds = Option.map round3 (precision_spec tp_folds fp_folds) ∧
    r_test tp_folds fn_folds = Option.map round3 (recall_spec tp_folds fn_folds) ∧
    prec_error tp_folds fp_folds =
      nanToNumR (oMul (oAdd (oScale 2 (rel_error tp_folds)) (rel_error fp_folds))
        (toR (Option.map round3 (precision_spec tp_folds fp_folds)))) ∧
    rec_error tp_folds fn_folds =
      nanToNumR (oMul (oAdd (oScale 2 (rel_error tp_folds)) (rel_error fn_folds))
        (toR (Option.map round3 (recall_spec tp_folds fn_folds)))) ∧
    (meanCounts tp_folds = 0 →
      prec_error tp_folds fp_folds = 0 ∧ rec_error tp_folds fn_folds = 0) := by
  have hp : p_test tp_folds fp_folds = Option.map round3 (precision_spec tp_folds fp_folds) := by
    rw [p_test, precision_spec]
    by_cases h : tp_folds.sum + fp_folds.sum = 0
    · rw [if_pos h, if_pos h]; rfl
    · rw [if_neg h, if_neg h]; rfl
  have hrr : r_test tp_folds fn_folds = Option.map round3 (recall_spec tp_folds fn_folds) := by
    rw [r_test, recall_spec]
    by_cases h : tp_folds.sum + fn_folds.sum = 0
    · rw [if_pos h, if_pos h]; rfl
    · rw [if_neg h, if_neg h]; rfl
  have hnan : meanCounts tp_folds = 0 →
      prec_error tp_folds fp_folds = 0 ∧ rec_error tp_folds fn_folds = 0 := by
    intro h
    have hre : rel_error tp_folds = none := by rw [rel_error, if_pos h]
    constructor
    · rw [prec_error, hre]
      rfl
    · rw [rec_error, hre]
      rfl
  exact ⟨hp, hrr, by rw [prec_error, hp], by rw [rec_error, hrr], hnan⟩

/-- C4 witness: the amended relationship evaluated at the concrete fold
counts TP = `[0, 0]`, FP = `[1]`, FN = `[2]`, where the zero-count
true-positive folds force the NaN coercion to zero. -/
theorem aggregated_metrics_amended_witness :
    p_test [0, 0] [1] = Option.map round3 (precision_spec [0, 0] [1]) ∧
    prec_error [0, 0] [1] = 0 ∧ rec_error [0, 0] [2] = 0 :=
  ⟨(aggregated_metrics_amended [0, 0] [1] [2]).1,
    (aggregated_metrics_amended [0, 0] [1] [2]).2.2.2.2
      (by norm_num [meanCounts])⟩

/-- C5: the k held-out test-index sets produced by the cross-validation
engine — sklearn's `KFold(n_splits=k, shuffle=True)`, used with k = 5 both
in `cross_validate` and in the threshold sweep — are pairwise disjoint and
their concatenation is a permutation of the full index set `range n`, for
any number of samples `n`, any `k > 0`, and any shuffled index sequence
`perm` (a permutation of `range n`): every index appears in exactly one
test fold. -/
theorem kfold_test_sets_partition (n k : Nat) (perm : List Nat)
    (hk : 0 < k) (hperm : perm.Perm (List.range n)) :
    (kfold_test_sets perm k).length = k ∧
    List.Pairwise List.Disjoint (kfold_test_sets perm k) ∧
    (kfold_test_sets perm k).flatten.Perm (List.range n) := by
  have hflat : (kfold_test_sets perm k).flatten = perm := by
    rw [kfold_test_sets]
    apply chunksBySizes_flatten
    exact fold_sizes_sum perm.length k hk
  refine ⟨?_, ?_, ?_⟩
  · rw [kfold_test_sets, chunksBySizes_length, fold_sizes, List.length_map,
      List.length_range]
  · have hnodup : (kfold_test_sets perm k).flatten.Nodup := by
      rw [hflat]
      exact hperm.symm.nodup (List.nodup_range n)
    exact (List.nodup_flatten.mp hnodup).2
  · rw [hflat]; exact hperm

/-- C5 witness: the partition property at the concrete shuffled index
sequence `[2, 0, 4, 1, 3]` of a 5-sample dataset with k = 5. -/
theorem kfold_test_sets_partition_witness :
    (kfold_test_sets [2, 0, 4, 1, 3] 5).length = 5 ∧
    List.Pairwise List.Disjoint (kfold_test_sets [2, 0, 4, 1, 3] 5) ∧
    (kfold_test_sets [2, 0, 4, 1, 3] 5).flatten.Perm (List.range 5) :=
  kfold_test_sets_partition 5 5 [2, 0, 4, 1, 3] (by decide) (by decide)

/-- C6 counterexample: the claim states the uniform draws come from a
caller-supplied seeded generator and never from process-global random
state. In the source, `predict_proba` takes no generator: it reseeds the
process-global `random` module with the hard-coded seed 32 on every call
and draws from it. Evaluated on a concrete instantiation of the `random`
module interface: two calls from distinct global states 0 and 7 return
identical results — the incoming state is discarded in favour of
`seed 32` — and the call overwrites the global state (the caller's state 0
is not preserved), so the draws do come from process-global state. -/
theorem dummy_classifier_global_state_counterexample :
    ProbabilityDummyClassifier.predict_proba toyR "random_prob" 2 0 =
      ProbabilityDummyClassifier.predict_proba toyR "random_prob" 2 7 ∧
    (ProbabilityDummyClassifier.predict_proba toyR "random_prob" 2 0).2 ≠ 0 := by
  constructor
  · rfl
  · rw [ProbabilityDummyClassifier.predict_proba, if_pos rfl]
    show (drawN toyR 2 (toyR.seed 32)).2 ≠ 0
    rw [drawN]
    simp [toyR, drawN]

/-- C6 (amended): `fit` is a no-op returning `None`; with strategy
`"random_prob"`, `predict_proba` returns one `[0, u]` pair per input sample,
the `u` drawn sequentially from the process-global `random` module reseeded
to the fixed seed 32 at the start of every call — so the returned list is
independent of the incoming global state and is determined by the sample
count alone; any other strategy returns `None` and leaves the state
unchanged. -/
theorem dummy_classifier_amended {σ : Type} (R : RandomModule σ) (xlen : Nat)
    (g g1 : σ) :
    (ProbabilityDummyClassifier.predict_proba R "random_prob" xlen g).1 =
      (ProbabilityDummyClassifier.predict_proba R "random_prob" xlen g1).1 ∧
    (ProbabilityDummyClassifier.predict_proba R "random_prob" xlen g).1 =
      some (((drawN R xlen (R.seed 32)).1).map (fun u => ((0 : ℚ), u))) ∧
    (drawN R xlen (R.seed 32)).1.length = xlen ∧
    (ProbabilityDummyClassifier.predict_proba R "random_prob" xlen g).2 =
      (drawN R xlen (R.seed 32)).2 ∧
    ProbabilityDummyClassifier.fit (σ := σ) g = (none, g) ∧
    ProbabilityDummyClassifier.predict_proba R "other" xlen g = (none, g) :=
  ⟨rfl, rfl, drawN_length R xlen (R.seed 32), rfl, rfl, rfl⟩

/-- C7 counterexample: when every fold has zero true positives and zero
false positives, the aggregated precision is the explicit undefined value
NaN (not zero, and the computation is total, i.e. does not crash) — but the
claim's final clause fails: downstream, `plot_precision_recall_curve`
passes the logistic and random-baseline columns through `np.nan_to_num`
(lines 465-468), which silently renders the undefined entry as 0 instead of
skipping it. -/
theorem zero_denominator_coerced_downstream :
    p_test [0, 0, 0, 0, 0] [0, 0, 0, 0, 0] = none ∧
    p_test [0, 0, 0, 0, 0] [0, 0, 0, 0, 0] ≠ some 0 ∧
    baseline_curve_values [p_test [0, 0, 0, 0, 0] [0, 0, 0, 0, 0]] = [0] := by
  have h : p_test [0, 0, 0, 0, 0] [0, 0, 0, 0, 0] = none := by
    rw [p_test]
    rfl
  refine ⟨h, ?_, ?_⟩
  · rw [h]
    intro hc
    exact Option.noConfusion hc
  · rw [baseline_curve_values, h]
    rfl

/-- C7 (amended): whenever a denominator is zero, the aggregation does not
crash (the functions are total) and does not report zero: the precision or
recall entry is the explicit undefined value NaN. Downstream, the main
model's curve uses the raw column (NaN left in place, excluded from
rendering), but the logistic and random-baseline curves coerce the NaN to 0
via `np.nan_to_num` before rendering. -/
theorem zero_denominator_yields_undefined (tp_folds fp_folds fn_folds : List Nat)
    (hp : tp_folds.sum + fp_folds.sum = 0) (hr : tp_folds.sum + fn_folds.sum = 0) :
    p_test tp_folds fp_folds = none ∧
    r_test tp_folds fn_folds = none ∧
    p_test tp_folds fp_folds ≠ some 0 ∧
    r_test tp_folds fn_folds ≠ some 0 ∧
    baseline_curve_values [p_test tp_folds fp_folds, r_test tp_folds fn_folds] =
      [0, 0] := by
  have h1 : p_test tp_folds fp_folds = none := by rw [p_test, if_pos hp]
  have h2 : r_test tp_folds fn_folds = none := by rw [r_test, if_pos hr]
  refine ⟨h1, h2, ?_, ?_, ?_⟩
  · rw [h1]; intro hc; exact Option.noConfusion hc
  · rw [h2]; intro hc; exact Option.noConfusion hc
  · rw [baseline_curve_values, h1, h2]
    rfl

/-- C7 witness: the amended behaviour at the concrete single-fold counts
TP = `[0]`, FP = `[0]`, FN = `[0]`. -/
theorem zero_denominator_yields_undefined_witness :
    p_test [0] [0] = none ∧ r_test [0] [0] = none ∧
    p_test [0] [0] ≠ some 0 ∧ r_test [0] [0] ≠ some 0 ∧
    baseline_curve_values [p_test [0] [0], r_test [0] [0]] = [0, 0] :=
  zero_denominator_yields_undefined [0] [0] [0] (by decide) (by decide)

/-- C8 counterexample: on the empty dataset, `get_precision_recall_curve_data`
does fail before computing any metrics, but with the generic `ValueError`
raised by sklearn's `KFold.split` (`n_splits=5 > n_samples=0`), not with
the `ConfigurationError` the claim names — no such error class exists in
the source. -/
theorem empty_dataset_raises_value_error :
    get_precision_recall_curve_data (fun _train _fp => 0) [] [] =
      Except.error PyError.valueError ∧
    get_precision_recall_curve_data (fun _train _fp => 0) [] [] ≠
      Except.error PyError.configurationError := by
  constructor
  · rfl
  · intro h
    exact PyError.noConfusion (Except.error.inj h)

/-- C8 (amended): calling the threshold sweep on any dataset with fewer
samples than the 5 requested splits — in particular the empty dataset —
fails with the `ValueError` raised by the `KFold` splitter before any model
is fitted, rather than returning empty or garbage metrics. -/
theorem small_dataset_raises_value_error (fitPP : List Sample → List Nat → ℚ)
    (perm : List Nat) (data : List Sample) (h : data.length < 5) :
    get_precision_recall_curve_data fitPP perm data =
      Except.error PyError.valueError := by
  rw [get_precision_recall_curve_data, kfold_split, if_pos h]

/-- C8 witness: the amended failure at a concrete one-sample dataset. -/
theorem small_dataset_raises_value_error_witness :
    get_precision_recall_curve_data (fun _train _fp => 0) [0]
      [⟨[1, 0], 1⟩] = Except.error PyError.valueError :=
  small_dataset_raises_value_error (fun _train _fp => 0) [0] [⟨[1, 0], 1⟩]
    (by decide)

/-- C9: for a fixed held-out set (labels `y_true`, predicted class-1
probabilities `probs1`) with at least one actual positive, the recall of
the threshold-sweep rule — positive exactly when the class-1 probability
strictly exceeds the threshold — is non-increasing in the threshold: for
any `t1 ≤ t2`, `recall(t2) ≤ recall(t1)`. -/
theorem recall_nonincreasing (y_true : List Nat) (probs1 : List ℚ) (t1 t2 : ℚ)
    (h12 : t1 ≤ t2)
    (hpos : 0 < tpCount y_true (y_pred_at probs1 t1) + fnCount y_true (y_pred_at probs1 t1)) :
    recallAt y_true probs1 t2 ≤ recallAt y_true probs1 t1 := by
  have hd := denom_const y_true probs1 t1
  have hd2 := denom_const y_true probs1 t2
  rw [recallAt, recallAt]
  have hcast1 : (tpCount y_true (y_pred_at probs1 t1) : ℚ) +
      (fnCount y_true (y_pred_at probs1 t1) : ℚ) =
      ((y_true.zip probs1).countP (fun q => q.1 == 1) : ℚ) := by
    exact_mod_cast congrArg (Nat.cast (R := ℚ)) hd
  have hcast2 : (tpCount y_true (y_pred_at probs1 t2) : ℚ) +
      (fnCount y_true (y_pred_at probs1 t2) : ℚ) =
      ((y_true.zip probs1).countP (fun q => q.1 == 1) : ℚ) := by
    exact_mod_cast congrArg (Nat.cast (R := ℚ)) hd2
  rw [hcast1, hcast2]
  have hP : (0 : ℚ) < ((y_true.zip probs1).countP (fun q => q.1 == 1) : ℚ) := by
    rw [← hd] at *
    exact_mod_cast hpos
  apply div_le_div_of_nonneg_right ?_ hP.le
  exact_mod_cast tp_antitone y_true probs1 t1 t2 h12

/-- C9 witness: recall monotonicity at the concrete held-out set with labels
`[1, 0, 1]`, probabilities `[1/2, 3/4, 1/4]`, thresholds `1/4 ≤ 1/2`. -/
theorem recall_nonincreasing_witness :
    recallAt [1, 0, 1] [1/2, 3/4, 1/4] (1/2) ≤
      recallAt [1, 0, 1] [1/2, 3/4, 1/4] (1/4) := by
  apply recall_nonincreasing
  · norm_num
  · norm_num [tpCount, fnCount, y_pred_at, classify, List.countP_cons]

/-- C10: `cross_validate` never mutates the stored model: each fold fits a
copy of `self.model` (`model = copy(self.model)`, line 181), and the final
object state returned by the embedding — whatever the estimator, metric
functions, fold permutation, or dataset — is exactly the input state, so
`self.model`, its hyperparameters and any previously fitted state are as
they were before the call. -/
theorem cross_validate_frame {Model : Type} (fit : Model → List Sample → Model)
    (predictFn : Model → List Nat → Nat)
    (metricFns : List (List Nat → List Nat → ℚ)) (perm : List Nat)
    (s : MPScoreState Model) (data : List Sample) :
    (cross_validate fit predictFn metricFns perm s data).2 = s := by
  rw [cross_validate]
  cases h : kfold_split data.length 5 perm with
  | error e => rfl
  | ok testSets =>
    exact cross_validate_foldl_state fit predictFn metricFns data _ _

end Mpscore
